import Mathlib

/-!
Verification of the BubuOS media playback engine
(src/apps/mediaplayer/app.py, src/apps/mediaplayer/playlists.py,
with the near-duplicate logic of src/apps/radio/app.py).

The Python code is shallowly embedded: the mutable fields of
MediaPlayerApp become a Lean structure, every method that the claims
touch becomes a pure state-transition function, and environment
effects (directory listings, random.choice, socket connect outcome,
process exit polling, wall-clock time, engine replies) become explicit
oracle parameters.
-/

namespace BubuOS

/-- A file name as Python os.path.splitext sees it: a stem plus an
extension that includes the leading dot. -/
structure FileName where
  stem : String
  ext : String
deriving DecidableEq, Repr

/-- Full file name, as listed by os.listdir. -/
def FileName.full (f : FileName) : String := f.stem ++ f.ext

/-- A track path as built by os.path.join(directory, name): the
directory part plus the file name part.  Equality of the pair models
equality of the joined path string. -/
structure TrackPath where
  dir : String
  file : FileName
deriving DecidableEq, Repr

def emptyTrack : TrackPath := ⟨"", ⟨"", ""⟩⟩

/-- AUDIO_EXTENSIONS from app.py. -/
def AUDIO_EXTENSIONS : List String :=
  [".mp3", ".wav", ".ogg", ".flac", ".aac", ".wma", ".m4a"]

/-- VIDEO_EXTENSIONS from app.py. -/
def VIDEO_EXTENSIONS : List String :=
  [".mp4", ".avi", ".mkv", ".webm", ".mov"]

/-- MEDIA_EXTENSIONS = AUDIO_EXTENSIONS | VIDEO_EXTENSIONS. -/
def MEDIA_EXTENSIONS : List String := AUDIO_EXTENSIONS ++ VIDEO_EXTENSIONS

/-- Membership test `ext in VIDEO_EXTENSIONS` (callers pass the
already-lowercased extension, as the Python code does). -/
def isVideoExt (e : String) : Bool := VIDEO_EXTENSIONS.contains e

/-- Membership test `ext in MEDIA_EXTENSIONS`. -/
def isMediaExt (e : String) : Bool := MEDIA_EXTENSIONS.contains e

/-- ASCII case folding of one character, as str.lower acts on the
extension strings involved here. -/
def lowerChar (c : Char) : Char :=
  if 65 ≤ c.toNat ∧ c.toNat ≤ 90 then Char.ofNat (c.toNat + 32) else c

/-- str.lower on a string (ASCII range, which covers the extension
sets of app.py). -/
def pyLower (s : String) : String := ⟨s.data.map lowerChar⟩

/-- name.startswith(".") on a file name. -/
def startsWithDot (s : String) : Bool :=
  match s.data with
  | c :: _ => c == '.'
  | [] => false

/-- Python string comparison a < b: lexicographic on code points. -/
def pyCharsLt : List Char → List Char → Bool
  | [], [] => false
  | [], _ :: _ => true
  | _ :: _, [] => false
  | a :: as, b :: bs =>
    if a.toNat < b.toNat then true
    else if b.toNat < a.toNat then false
    else pyCharsLt as bs

def pyStrLt (a b : String) : Bool := pyCharsLt a.data b.data

/-- Insert into a sorted list, before the first element that is not
strictly smaller (this keeps the sort stable, as Python sorted is). -/
def insertSorted (a : FileName) : List FileName → List FileName
  | [] => [a]
  | b :: bs =>
    if pyStrLt b.full a.full then b :: insertSorted a bs
    else a :: b :: bs

/-- sorted(...) on a directory listing, by full file name. -/
def sortedListing : List FileName → List FileName
  | [] => []
  | a :: as => insertSorted a (sortedListing as)

/-- View constants from app.py. -/
def VIEW_LIBRARY : Nat := 0
def VIEW_TRACKS : Nat := 1
def VIEW_PLAYLIST : Nat := 2
def VIEW_NOW_PLAYING : Nat := 3

/-- The position cache of the Position Estimator: fields _cached_pos,
_cached_dur, _pos_query_time, _last_query_tick of MediaPlayerApp.
Seconds are modelled as rationals. -/
structure PosCache where
  cachedPos : ℚ := 0
  cachedDur : ℚ := 0
  posQueryTime : ℚ := 0
  lastQueryTick : ℚ := 0
deriving DecidableEq, Repr

/-- The playback-relevant mutable state of MediaPlayerApp.  Process
and socket handles are abstracted to presence booleans. -/
structure MPState where
  playlist : List TrackPath := []
  playlistDisplay : List String := []
  current_index : Int := -1
  playing : Bool := false
  paused : Bool := false
  shuffle : Bool := false
  view : Nat := VIEW_LIBRARY
  returnView : Nat := VIEW_LIBRARY
  mpvProc : Bool := false
  mpvSock : Bool := false
  videoProc : Bool := false
  cache : PosCache := {}
deriving DecidableEq, Repr

/-- The state right after MediaPlayerApp.__init__ (no file argument). -/
def initState : MPState := {}

/-- A JSON value, for the playlist persistence format and the mpv
control-channel replies. -/
inductive Json where
  | null
  | bool (b : Bool)
  | num (n : Int)
  | str (s : String)
  | arr (xs : List Json)
  | obj (kvs : List (String × Json))
deriving Repr

/-!  Position Estimator: MediaPlayerApp._get_elapsed.

Oracles: `now` is time.time(); `queryResult` is the value that
self._mpv_get("time-pos") would return (None or a float).  The result
is (returned seconds, updated cache, whether a resync query was
issued). -/

def getElapsed (c : PosCache) (paused hasSock : Bool) (now : ℚ)
    (queryResult : Option ℚ) : ℚ × PosCache × Bool :=
  let step :=
    if hasSock ∧ (1 : ℚ)/2 < now - c.lastQueryTick then
      let c1 := match queryResult with
        | some pos => { c with cachedPos := pos, posQueryTime := now }
        | none => c
      ({ c1 with lastQueryTick := now }, true)
    else (c, false)
  let c2 := step.1
  let v := if paused then c2.cachedPos else c2.cachedPos + (now - c2.posQueryTime)
  (v, c2, step.2)

/-!  Playback control: MediaPlayerApp._stop, _play, _toggle_pause,
_next_index, update, and the track-loading methods. -/

/-- MediaPlayerApp._stop, effect on the state fields: close the
socket, terminate (and if needed kill) the processes, clear the
playing flags and the cached position and duration. -/
def stop (s : MPState) : MPState :=
  { s with mpvSock := false, mpvProc := false, videoProc := false,
           playing := false, paused := false,
           cache := { s.cache with cachedPos := 0, cachedDur := 0 } }

/-- The externally visible actions of MediaPlayerApp._stop, in order. -/
inductive StopAct where
  | sendCmd (args : List String)
  | closeSock
  | terminate
  | waitProc (timeoutSecs : Nat)
  | kill
  | terminateVideo
deriving DecidableEq, Repr

def StopAct.isSend : StopAct → Bool
  | StopAct.sendCmd _ => true
  | _ => false

/-- The action trace of MediaPlayerApp._stop.  The oracle
`exitsWithinTimeout` tells whether self._mpv_proc.wait(timeout=1)
returns before the timeout (no TimeoutExpired). -/
def stopActions (s : MPState) (exitsWithinTimeout : Bool) : List StopAct :=
  (if s.mpvSock then [StopAct.closeSock] else [])
  ++ (if s.mpvProc then
        [StopAct.terminate, StopAct.waitProc 1]
        ++ (if exitsWithinTimeout then [] else [StopAct.kill])
      else [])
  ++ (if s.videoProc then [StopAct.terminateVideo] else [])

/-- MediaPlayerApp._play.  Oracles: `connectOk` is whether
_mpv_connect succeeds; `videoSpawnOk` is whether the video Popen
raises FileNotFoundError; `now` is time.time() at connect success. -/
def play (s : MPState) (index : Int) (connectOk videoSpawnOk : Bool)
    (now : ℚ) : MPState :=
  if index < 0 ∨ (s.playlist.length : Int) ≤ index then s
  else
    let s1 := stop s
    let s2 := { s1 with current_index := index }
    let path := s2.playlist.getD index.toNat emptyTrack
    let ext := pyLower path.file.ext
    if isVideoExt ext then
      if videoSpawnOk then { s2 with videoProc := true, playing := true } else s2
    else
      let s3 := { s2 with mpvProc := true }
      if connectOk then
        { s3 with mpvSock := true, playing := true, paused := false,
                  cache := { cachedPos := 0, cachedDur := 0,
                             posQueryTime := now, lastQueryTick := 0 },
                  view := VIEW_NOW_PLAYING }
      else stop s3

/-- MediaPlayerApp._toggle_pause.  On entering pause the current
elapsed estimate is snapshotted into the cache. -/
def togglePause (s : MPState) (now : ℚ) (queryResult : Option ℚ) : MPState :=
  if !s.playing then s
  else
    let s1 := { s with paused := !s.paused }
    if s1.paused then
      let e := getElapsed s1.cache s1.paused s1.mpvSock now queryResult
      { s1 with cache := { e.2.1 with cachedPos := e.1, posQueryTime := now } }
    else s1

/-- MediaPlayerApp._next_index.  The oracle `r` feeds random.choice:
on a nonempty list l the Python call returns an element of l, modelled
as the element at position r % l.length. -/
def nextIndex (s : MPState) (direction : Int) (r : Nat) : Option Int :=
  if s.playlist.isEmpty then none
  else if s.shuffle then
    if s.playlist.length = 1 then some 0
    else
      let candidates := (List.range s.playlist.length).filter
        (fun (i : Nat) => decide ((i : Int) ≠ s.current_index))
      let chosen : Nat := candidates.getD (r % candidates.length) 0
      some (chosen : Int)
  else
    let nxt := s.current_index + direction
    if 0 ≤ nxt ∧ nxt < (s.playlist.length : Int) then some nxt else none

/-- The first block of MediaPlayerApp.update: if the audio engine
process has exited while playing, drop the dead handles and
auto-advance.  The oracle `audioExited` is whether
self._mpv_proc.poll() is not None. -/
def autoAdvanceStep (s : MPState) (audioExited : Bool) (r : Nat)
    (connectOk videoSpawnOk : Bool) (now : ℚ) : MPState :=
  if s.playing && s.mpvProc && audioExited then
    let s1 := { s with mpvSock := false, mpvProc := false }
    match nextIndex s1 1 r with
    | some nxt => play s1 nxt connectOk videoSpawnOk now
    | none => { s1 with playing := false, paused := false, view := s1.returnView }
  else s

/-- The second block of MediaPlayerApp.update: reap a finished
video process. -/
def videoReapStep (s : MPState) (videoExited : Bool) : MPState :=
  if s.videoProc && videoExited then
    { s with videoProc := false, playing := false }
  else s

/-- MediaPlayerApp.update: the per-tick auto-advance check, the two
blocks in source order. -/
def update (s : MPState) (audioExited videoExited : Bool) (r : Nat)
    (connectOk videoSpawnOk : Bool) (now : ℚ) : MPState :=
  videoReapStep (autoAdvanceStep s audioExited r connectOk videoSpawnOk now) videoExited

/-- MediaPlayerApp._load_tracks_from_dir.  The oracle `listing` is
os.listdir(directory): none models an OSError. -/
def loadTracksFromDir (s : MPState) (dir : String)
    (listing : Option (List FileName)) : MPState :=
  let files := match listing with
    | some fs => sortedListing fs
    | none => []
  let media := files.filter
    (fun f => !(startsWithDot f.full) && isMediaExt (pyLower f.ext))
  { s with playlist := media.map (fun f => ⟨dir, f⟩),
           playlistDisplay := media.map (fun f =>
             (if isVideoExt (pyLower f.ext) then "[VID] " else "[AUD] ") ++ f.full) }

/-- MediaPlayerApp._play_from_playlist_detail.  `plTracks` is
self._pl_tracks; the oracle `fileExists` is os.path.isfile. -/
def playFromPlaylistDetail (s : MPState) (plTracks : List TrackPath)
    (fileExists : TrackPath → Bool) (index : Nat)
    (connectOk videoSpawnOk : Bool) (now : ℚ) : MPState :=
  let valid := plTracks.filter fileExists
  if valid.isEmpty then s
  else
    let s1 := { s with playlist := valid,
                       playlistDisplay := valid.map (fun (p : TrackPath) =>
                         (if isVideoExt (pyLower p.file.ext) then "[VID] " else "[AUD] ")
                           ++ p.file.full) }
    let playIdx : Nat :=
      if index < plTracks.length then
        let target := plTracks.getD index emptyTrack
        match valid.findIdx? (fun p => decide (p = target)) with
        | some i => i
        | none => 0
      else 0
    let s2 := { s1 with returnView := VIEW_PLAYLIST }
    play s2 (playIdx : Int) connectOk videoSpawnOk now

/-!  Control-Channel Client: the request id and _mpv_get. -/

/-- The request-correlation id: rid = int(time.time() * 10000) % 99999.
`t` is the integer number of 100-microsecond ticks of the wall clock,
int(time.time() * 10000). -/
def requestId (t : Nat) : Nat := t % 99999

/-- One parsed line of a control-channel reply: the fields that
_mpv_get reads via obj.get. -/
structure MpvMsg where
  request_id : Option Int
  error : Option String
  data : Option Json
deriving Repr

/-- One event of the blocking receive loop in _mpv_get: a received
chunk (its parsed lines, none for a line that fails json.loads), the
peer closing, a socket timeout, or an OSError; the end of the list
models the deadline expiring. -/
inductive RecvEvent where
  | chunk (lines : List (Option MpvMsg))
  | closed
  | timedOut
  | sockError
deriving Repr

/-- The per-line test of _mpv_get: a parsed object whose request_id
equals rid and whose error field is "success" yields its data. -/
def matchLine (rid : Int) (l : Option MpvMsg) : Option (Option Json) :=
  match l with
  | some m =>
    if m.request_id = some rid ∧ m.error = some "success"
    then some m.data else none
  | none => none

/-- The receive loop of _mpv_get over the events of one query. -/
def scanReplies (rid : Int) : List RecvEvent → Option Json
  | [] => none
  | RecvEvent.chunk lines :: rest =>
    match lines.findSome? (matchLine rid) with
    | some d => d
    | none => scanReplies rid rest
  | RecvEvent.closed :: _ => none
  | RecvEvent.timedOut :: _ => none
  | RecvEvent.sockError :: _ => none

/-- MediaPlayerApp._mpv_get (identical in RadioApp._mpv_get):
returns none when there is no socket, when sendall raises OSError,
and when no matching successful reply arrives before the deadline. -/
def mpv_get (hasSock sendOk : Bool) (rid : Int)
    (events : List RecvEvent) : Option Json :=
  if !hasSock then none
  else if !sendOk then none
  else scanReplies rid events

/-- Whether a line is a matching successful reply. -/
def lineMatches (rid : Int) (l : Option MpvMsg) : Bool :=
  (matchLine rid l).isSome

/-- No event of the query carries a matching successful reply. -/
def noReplyMatches (rid : Int) (events : List RecvEvent) : Bool :=
  events.all (fun e => match e with
    | RecvEvent.chunk lines => lines.all (fun l => !(lineMatches rid l))
    | _ => true)

/-!  Playlist Store: playlists.load_playlist. -/

/-- Outcome of open(path) + json.load(f). -/
inductive ParseOutcome where
  | ioError
  | decodeError
  | ok (j : Json)
deriving Repr

/-- Python dict.get(key, default) on a parsed JSON object. -/
def pyDictGet (kvs : List (String × Json)) (key : String) (dflt : Json) : Json :=
  match kvs.find? (fun kv => kv.1 == key) with
  | some kv => kv.2
  | none => dflt

/-- playlists.load_playlist: OSError and JSONDecodeError yield [];
a parsed object yields data.get("tracks", []) unchanged; a parsed
non-object makes data.get raise an uncaught AttributeError. -/
def load_playlist : ParseOutcome → Except String Json
  | ParseOutcome.ioError => Except.ok (Json.arr [])
  | ParseOutcome.decodeError => Except.ok (Json.arr [])
  | ParseOutcome.ok (Json.obj kvs) => Except.ok (pyDictGet kvs "tracks" (Json.arr []))
  | ParseOutcome.ok _ => Except.error "AttributeError"

/-- The cursor invariant claimed for the working play queue. -/
def cursorInv (s : MPState) : Prop :=
  s.current_index = -1 ∨
    (0 ≤ s.current_index ∧ s.current_index < (s.playlist.length : Int))

instance (s : MPState) : Decidable (cursorInv s) := by
  unfold cursorInv; infer_instance

/-!  Helper lemmas. -/

theorem getD_mem_of_ne_nil {l : List Nat} (h : l ≠ []) (k : Nat) :
    l.getD (k % l.length) 0 ∈ l := by
  have hlen : 0 < l.length := List.length_pos.mpr h
  have hk : k % l.length < l.length := Nat.mod_lt _ hlen
  rw [List.getD_eq_getElem l 0 hk]
  exact List.getElem_mem hk

theorem shuffle_candidates_ne_nil {len : Nat} (cur : Int) (h : 2 ≤ len) :
    (List.range len).filter (fun (i : Nat) => decide ((i : Int) ≠ cur)) ≠ [] := by
  intro hemp
  have hall := List.filter_eq_nil_iff.mp hemp
  have h0 := hall 0 (List.mem_range.mpr (by omega))
  have h1 := hall 1 (List.mem_range.mpr (by omega))
  simp at h0 h1
  omega

theorem playlist_isEmpty_false_of_le {s : MPState} (h : 1 ≤ s.playlist.length) :
    s.playlist.isEmpty = false := by
  cases hp : s.playlist with
  | nil => rw [hp] at h; simp at h
  | cons a l => simp

/-- In the shuffle branch with at least two tracks, _next_index picks
the oracle-selected element of the candidate list. -/
theorem nextIndex_shuffle_eq (s : MPState) (d : Int) (r : Nat)
    (hs : s.shuffle = true) (h2 : 2 ≤ s.playlist.length) :
    nextIndex s d r =
      some ((((List.range s.playlist.length).filter
        (fun (i : Nat) => decide ((i : Int) ≠ s.current_index))).getD
          (r % ((List.range s.playlist.length).filter
            (fun (i : Nat) => decide ((i : Int) ≠ s.current_index))).length) 0 : Nat) : Int) := by
  have he : s.playlist.isEmpty = false := playlist_isEmpty_false_of_le (by omega)
  have h1 : ¬ s.playlist.length = 1 := by omega
  unfold nextIndex
  rw [he, hs]
  rw [if_neg (by decide), if_pos rfl, if_neg h1]

theorem findIdx?_some_lt_aux {α : Type} (p : α → Bool) :
    ∀ (l : List α) (i j : Nat), List.findIdx? p l i = some j → j < i + l.length := by
  intro l
  induction l with
  | nil =>
    intro i j h
    rw [List.findIdx?_nil] at h
    cases h
  | cons a as ih =>
    intro i j h
    rw [List.findIdx?_cons] at h
    by_cases hp : p a = true
    · rw [if_pos hp] at h
      have hj := Option.some.inj h
      simp [List.length_cons]
      omega
    · rw [if_neg hp] at h
      have := ih (i + 1) j h
      simp [List.length_cons]
      omega

theorem findIdx?_some_lt {α : Type} (p : α → Bool) {l : List α} {j : Nat}
    (h : List.findIdx? p l = some j) : j < l.length := by
  have := findIdx?_some_lt_aux p l 0 j h
  omega

/-- Play with an out-of-range index returns the state unchanged. -/
theorem play_of_not_in_range (s : MPState) (index : Int) (c v : Bool) (now : ℚ)
    (h : index < 0 ∨ (s.playlist.length : Int) ≤ index) :
    play s index c v now = s := by
  unfold play
  rw [if_pos h]

/-- Play with an in-bounds index sets the cursor to that index in
every branch. -/
theorem play_current_of_in_range (s : MPState) (index : Int) (c v : Bool) (now : ℚ)
    (h0 : 0 ≤ index) (h1 : index < (s.playlist.length : Int)) :
    (play s index c v now).current_index = index := by
  unfold play
  rw [if_neg (by omega)]
  dsimp only
  split
  · split <;> rfl
  · split <;> rfl

/-- Play never changes the working queue itself. -/
theorem play_playlist_eq (s : MPState) (index : Int) (c v : Bool) (now : ℚ) :
    (play s index c v now).playlist = s.playlist := by
  unfold play
  split
  · rfl
  · dsimp only
    split
    · split <;> rfl
    · split <;> rfl

/-- C3: with shuffle enabled, Advance on a queue of length 1 always
returns index 0, and on a queue of length at least 2 it returns an
index among the queue positions other than the current index, never
the current index. -/
theorem c3_shuffle_advance (s : MPState) (d : Int) (r : Nat)
    (hs : s.shuffle = true) :
    (s.playlist.length = 1 → nextIndex s d r = some 0) ∧
    (2 ≤ s.playlist.length →
      ∃ n : Int, nextIndex s d r = some n ∧ n ≠ s.current_index ∧
        0 ≤ n ∧ n < (s.playlist.length : Int)) := by
  constructor
  · intro h1
    have he : s.playlist.isEmpty = false := playlist_isEmpty_false_of_le (by omega)
    unfold nextIndex
    simp [he, hs, h1]
  · intro h2
    have hc := shuffle_candidates_ne_nil s.current_index h2
    have hmem := getD_mem_of_ne_nil hc r
    have hmf := List.mem_filter.mp hmem
    exact ⟨_, nextIndex_shuffle_eq s d r hs h2, of_decide_eq_true hmf.2,
      by exact_mod_cast Nat.zero_le _,
      by exact_mod_cast List.mem_range.mp hmf.1⟩

/-- Witness for c3_shuffle_advance at a concrete shuffled queue. -/
def c3state : MPState :=
  { playlist := [⟨"/m", ⟨"a", ".mp3"⟩⟩, ⟨"/m", ⟨"b", ".mp3"⟩⟩, ⟨"/m", ⟨"c", ".mp3"⟩⟩],
    current_index := 1, shuffle := true }

theorem c3_shuffle_advance_witness :
    c3state.shuffle = true ∧ 2 ≤ c3state.playlist.length ∧
    (∃ n : Int, nextIndex c3state 1 7 = some n ∧ n ≠ c3state.current_index ∧
      0 ≤ n ∧ n < (c3state.playlist.length : Int)) :=
  ⟨by decide, by decide, (c3_shuffle_advance c3state 1 7 (by decide)).2 (by decide)⟩

/-!  C4: out-of-range Play. -/

def twoTrackState : MPState :=
  play (loadTracksFromDir initState "/m"
    (some [⟨"a", ".mp3"⟩, ⟨"b", ".mp3"⟩])) 0 true true 0

/-- C4 counterexample: Play(5) on a playing 2-track queue is a no-op:
nothing is stopped, no clamped index is played, the state is
unchanged (in particular the cursor stays 0, not the nearest in-bounds
index 1). -/
theorem c4_out_of_range_counterexample :
    twoTrackState.playing = true ∧ twoTrackState.playlist.length = 2 ∧
    play twoTrackState 5 true true 0 = twoTrackState ∧
    (play twoTrackState 5 true true 0).current_index = 0 ∧
    play twoTrackState (-1) true true 0 = twoTrackState := by decide

/-- C4 amended: Play(index) with an index outside the queue bounds is
a no-op (the state is returned unchanged, no session is stopped and
nothing is loaded); for an in-bounds index it stops the current
session and sets the cursor to that index, leaving the queue itself
unchanged. -/
theorem c4_play_amended (s : MPState) (index : Int) (c v : Bool) (now : ℚ) :
    (index < 0 ∨ (s.playlist.length : Int) ≤ index →
      play s index c v now = s) ∧
    (0 ≤ index → index < (s.playlist.length : Int) →
      (play s index c v now).current_index = index ∧
      (play s index c v now).playlist = s.playlist) := by
  constructor
  · intro h
    exact play_of_not_in_range s index c v now h
  · intro h0 h1
    exact ⟨play_current_of_in_range s index c v now h0 h1,
      play_playlist_eq s index c v now⟩

theorem c4_play_amended_witness :
    (0 : Int) ≤ 1 ∧ (1 : Int) < (twoTrackState.playlist.length : Int) ∧
    (play twoTrackState 1 true true 0).current_index = 1 ∧
    (play twoTrackState 1 true true 0).playlist = twoTrackState.playlist :=
  ⟨by decide, by decide,
    ((c4_play_amended twoTrackState 1 true true 0).2 (by decide) (by decide)).1,
    ((c4_play_amended twoTrackState 1 true true 0).2 (by decide) (by decide)).2⟩

/-!  C5: the shutdown sequence of _stop. -/

def liveSession : MPState :=
  { initState with mpvSock := true, mpvProc := true, playing := true }

/-- C5 counterexample: stopping a live session never sends any
control-channel command at all — in particular no quit: the trace is
close socket, terminate, wait, kill (on timeout), and contains no
send action also when the process exits in time. -/
theorem c5_no_quit_counterexample :
    liveSession.mpvSock = true ∧ liveSession.mpvProc = true ∧
    stopActions liveSession false =
      [StopAct.closeSock, StopAct.terminate, StopAct.waitProc 1, StopAct.kill] ∧
    (stopActions liveSession false).all (fun a => !a.isSend) = true ∧
    (stopActions liveSession true).all (fun a => !a.isSend) = true := by decide

/-- C5 amended: stopping a session sends no protocol command (the
quit command is never issued); it closes the control channel first,
then requests graceful termination, and escalates to a forceful kill
exactly when the process does not exit within the timeout; _stop is
idempotent on the state. -/
theorem c5_stop_amended (s : MPState) (b : Bool) :
    (∀ a ∈ stopActions s b, a.isSend = false) ∧
    (s.mpvSock = true → (stopActions s b).head? = some StopAct.closeSock) ∧
    (s.mpvProc = true → StopAct.terminate ∈ stopActions s b) ∧
    (s.mpvProc = true → (StopAct.kill ∈ stopActions s b ↔ b = false)) ∧
    stop (stop s) = stop s := by
  refine ⟨?_, ?_, ?_, ?_, rfl⟩ <;>
    cases hsk : s.mpvSock <;> cases hp : s.mpvProc <;>
      cases hv : s.videoProc <;> cases b <;>
        simp [stopActions, hsk, hp, hv, StopAct.isSend]

theorem c5_stop_amended_witness :
    liveSession.mpvSock = true ∧ liveSession.mpvProc = true ∧
    (stopActions liveSession false).head? = some StopAct.closeSock ∧
    StopAct.terminate ∈ stopActions liveSession false ∧
    (StopAct.kill ∈ stopActions liveSession false ↔ false = false) :=
  ⟨rfl, rfl,
    (c5_stop_amended liveSession false).2.1 rfl,
    (c5_stop_amended liveSession false).2.2.1 rfl,
    (c5_stop_amended liveSession false).2.2.2.1 rfl⟩

/-!  C6: the request-correlation id. -/

/-- C6 counterexample: the request id is time-derived modulo 99999,
not a monotonic counter: at tick 99998 the id is 99998, at the later
tick 99999 it is 0, strictly smaller. -/
theorem c6_request_id_counterexample :
    (99998 < 99999) ∧ requestId 99999 < requestId 99998 := by decide

/-- C6 amended: the request id is derived from the wall clock as
int(time.time() * 10000) mod 99999; for two queries whose clock ticks
fall in the same modulus window it is strictly increasing, but across
a window wrap it decreases, so it is not a monotonic counter. -/
theorem c6_request_id_amended (t1 t2 : Nat) (h : t1 < t2)
    (hw : t1 / 99999 = t2 / 99999) : requestId t1 < requestId t2 := by
  unfold requestId
  omega

theorem c6_request_id_amended_witness :
    (5 < 10) ∧ (5 / 99999 = 10 / 99999) ∧ requestId 5 < requestId 10 :=
  ⟨by decide, by decide, c6_request_id_amended 5 10 (by decide) (by decide)⟩

/-- Any index returned by _next_index is a valid queue position. -/
theorem nextIndex_some_bounds {s : MPState} {d : Int} {r : Nat} {n : Int}
    (h : nextIndex s d r = some n) :
    0 ≤ n ∧ n < (s.playlist.length : Int) := by
  by_cases he : s.playlist.isEmpty = true
  · unfold nextIndex at h
    rw [he, if_pos rfl] at h
    cases h
  · have he' : s.playlist.isEmpty = false := by
      cases hb : s.playlist.isEmpty
      · rfl
      · exact absurd hb he
    have hlen : 0 < s.playlist.length := by
      cases hp : s.playlist with
      | nil => rw [hp] at he'; simp at he'
      | cons a l => simp [hp]
    by_cases hs : s.shuffle = true
    · by_cases h1 : s.playlist.length = 1
      · unfold nextIndex at h
        rw [he', hs, if_neg (by decide), if_pos rfl, if_pos h1] at h
        have h0 := Option.some.inj h
        omega
      · have h2 : 2 ≤ s.playlist.length := by omega
        rw [nextIndex_shuffle_eq s d r hs h2] at h
        have hn := Option.some.inj h
        have hc := shuffle_candidates_ne_nil s.current_index h2
        have hmf := List.mem_filter.mp (getD_mem_of_ne_nil hc r)
        have hlt := List.mem_range.mp hmf.1
        constructor
        · rw [← hn]; exact_mod_cast Nat.zero_le _
        · rw [← hn]; exact_mod_cast hlt
    · have hs' : s.shuffle = false := by
        cases hb : s.shuffle
        · rfl
        · exact absurd hb hs
      unfold nextIndex at h
      rw [he', hs', if_neg (by decide), if_neg (by decide)] at h
      dsimp only at h
      by_cases hb : 0 ≤ s.current_index + d ∧ s.current_index + d < (s.playlist.length : Int)
      · rw [if_pos hb] at h
        have := Option.some.inj h
        omega
      · rw [if_neg hb] at h
        cases h

/-- The track the cursor points at is a member of the queue. -/
theorem getD_mem_playlist (s : MPState) {n : Int} (h0 : 0 ≤ n)
    (h1 : n < (s.playlist.length : Int)) :
    s.playlist.getD n.toNat emptyTrack ∈ s.playlist := by
  have hlt : n.toNat < s.playlist.length := by omega
  rw [List.getD_eq_getElem _ _ hlt]
  exact List.getElem_mem hlt

/-- Starting an in-bounds audio track with a successful handshake
yields exactly the playing record of _play. -/
theorem play_audio_connect (s : MPState) (index : Int) (v : Bool) (now : ℚ)
    (h0 : 0 ≤ index) (h1 : index < (s.playlist.length : Int))
    (haudio : isVideoExt (pyLower ((s.playlist.getD index.toNat emptyTrack).file.ext)) = false) :
    play s index true v now =
      { s with current_index := index, mpvProc := true, mpvSock := true,
               playing := true, paused := false, videoProc := false,
               cache := { cachedPos := 0, cachedDur := 0,
                          posQueryTime := now, lastQueryTick := 0 },
               view := VIEW_NOW_PLAYING } := by
  unfold play
  rw [if_neg (by omega)]
  dsimp only [stop]
  rw [haudio, if_neg (by decide), if_pos rfl]

/-!  Invariant preservation lemmas for the cursor invariant. -/

theorem stop_inv {s : MPState} (h : cursorInv s) : cursorInv (stop s) := by
  simpa [cursorInv, stop] using h

theorem play_inv (s : MPState) (index : Int) (c v : Bool) (now : ℚ)
    (h : cursorInv s) : cursorInv (play s index c v now) := by
  by_cases hg : index < 0 ∨ (s.playlist.length : Int) ≤ index
  · rw [play_of_not_in_range s index c v now hg]
    exact h
  · have h0 : 0 ≤ index := by omega
    have h1 : index < (s.playlist.length : Int) := by omega
    unfold cursorInv
    rw [play_current_of_in_range s index c v now h0 h1, play_playlist_eq]
    exact Or.inr ⟨h0, h1⟩

theorem togglePause_inv (s : MPState) (now : ℚ) (qr : Option ℚ)
    (h : cursorInv s) : cursorInv (togglePause s now qr) := by
  unfold togglePause
  split
  · exact h
  · dsimp only
    split
    · simpa [cursorInv] using h
    · simpa [cursorInv] using h

theorem autoAdvanceStep_inv (s : MPState) (ae : Bool) (r : Nat) (c v : Bool)
    (now : ℚ) (h : cursorInv s) : cursorInv (autoAdvanceStep s ae r c v now) := by
  unfold autoAdvanceStep
  split
  · dsimp only
    cases hnx : nextIndex { s with mpvSock := false, mpvProc := false } 1 r with
    | some nxt =>
      simp only [hnx]
      exact play_inv _ nxt c v now (by simpa [cursorInv] using h)
    | none =>
      simp only [hnx]
      simpa [cursorInv] using h
  · exact h

theorem videoReapStep_false (s : MPState) : videoReapStep s false = s := by
  unfold videoReapStep
  rw [if_neg (by simp)]

theorem videoReapStep_inv (s : MPState) (ve : Bool) (h : cursorInv s) :
    cursorInv (videoReapStep s ve) := by
  unfold videoReapStep
  split
  · simpa [cursorInv] using h
  · exact h

theorem playFromPlaylistDetail_inv (s : MPState) (plT : List TrackPath)
    (ex : TrackPath → Bool) (idx : Nat) (c v : Bool) (now : ℚ)
    (h : cursorInv s) : cursorInv (playFromPlaylistDetail s plT ex idx c v now) := by
  unfold playFromPlaylistDetail
  dsimp only
  by_cases hie : (plT.filter ex).isEmpty = true
  · rw [if_pos hie]
    exact h
  · rw [if_neg hie]
    have hval : plT.filter ex ≠ [] := by
      intro hh
      exact hie (List.isEmpty_iff.mpr hh)
    have hlen : 0 < (plT.filter ex).length := List.length_pos.mpr hval
    have hidx : (if idx < plT.length then
        match (plT.filter ex).findIdx? (fun p => decide (p = plT.getD idx emptyTrack)) with
        | some i => i
        | none => 0
      else 0) < (plT.filter ex).length := by
      by_cases hi : idx < plT.length
      · rw [if_pos hi]
        cases hf : (plT.filter ex).findIdx? (fun p => decide (p = plT.getD idx emptyTrack)) with
        | some i => simp only [hf]; exact findIdx?_some_lt _ hf
        | none => simp only [hf]; exact hlen
      · rw [if_neg hi]
        exact hlen
    unfold cursorInv
    rw [play_current_of_in_range _ _ c v now (by exact_mod_cast Nat.zero_le _)
      (by exact_mod_cast hidx), play_playlist_eq]
    refine Or.inr ⟨by exact_mod_cast Nat.zero_le _, by exact_mod_cast hidx⟩

/-!  C1: the cursor invariant. -/

def musicListing : List FileName :=
  [⟨"a", ".mp3"⟩, ⟨"b", ".mp3"⟩, ⟨"c", ".mp3"⟩, ⟨"d", ".mp3"⟩, ⟨"e", ".mp3"⟩, ⟨"f", ".mp3"⟩]

def subListing : List FileName := [⟨"x", ".mp3"⟩, ⟨"y", ".mp3"⟩]

def c1AfterAllMusic : MPState := loadTracksFromDir initState "/music" (some musicListing)

def c1PlayingLast : MPState := play c1AfterAllMusic 5 true true 0

def c1AfterFolderOpen : MPState :=
  loadTracksFromDir c1PlayingLast "/music/sub" (some subListing)

/-- C1 counterexample: a reachable state violating the cursor
invariant.  Open All Music (6 tracks), play track 5, then open a
folder with 2 tracks: _load_tracks_from_dir rebuilds the queue but
leaves the cursor at 5, which is out of range for the new queue. -/
theorem c1_queue_rebuild_counterexample :
    cursorInv c1AfterAllMusic ∧ cursorInv c1PlayingLast ∧
    c1PlayingLast.playing = true ∧
    c1AfterFolderOpen.current_index = 5 ∧
    c1AfterFolderOpen.playlist.length = 2 ∧
    ¬ cursorInv c1AfterFolderOpen := by decide

/-- C1 amended: the cursor invariant (cursor is -1 or a valid queue
index) is preserved by the playback operations — Play, Stop,
Toggle-pause, the auto-advance tick, and play-from-playlist — but it
is not preserved by rebuilding the working queue when a new browsing
context is opened: _load_tracks_from_dir replaces the queue without
resetting the cursor, so the cursor can be left out of range (the
cursor-consuming operations guard against that case instead). -/
theorem c1_cursor_invariant_amended (s : MPState) (index : Int)
    (cOk vOk ae ve : Bool) (r : Nat) (now : ℚ) (qr : Option ℚ)
    (plT : List TrackPath) (ex : TrackPath → Bool) (idx : Nat)
    (h : cursorInv s) :
    cursorInv (play s index cOk vOk now) ∧
    cursorInv (stop s) ∧
    cursorInv (togglePause s now qr) ∧
    cursorInv (update s ae ve r cOk vOk now) ∧
    cursorInv (playFromPlaylistDetail s plT ex idx cOk vOk now) :=
  ⟨play_inv s index cOk vOk now h, stop_inv h, togglePause_inv s now qr h,
    videoReapStep_inv _ ve (autoAdvanceStep_inv s ae r cOk vOk now h),
    playFromPlaylistDetail_inv s plT ex idx cOk vOk now h⟩

theorem c1_cursor_invariant_amended_witness :
    cursorInv twoTrackState ∧
    cursorInv (play twoTrackState 1 true true 0) ∧
    cursorInv (stop twoTrackState) ∧
    cursorInv (togglePause twoTrackState 1 none) ∧
    cursorInv (update twoTrackState true false 0 true true 1) ∧
    cursorInv (playFromPlaylistDetail twoTrackState [] (fun _ => true) 0 true true 1) :=
  ⟨by decide,
    (c1_cursor_invariant_amended twoTrackState 1 true true true false 0 1 none
      [] (fun _ => true) 0 (by decide)).1,
    (c1_cursor_invariant_amended twoTrackState 1 true true true false 0 1 none
      [] (fun _ => true) 0 (by decide)).2.1,
    (c1_cursor_invariant_amended twoTrackState 1 true true true false 0 1 none
      [] (fun _ => true) 0 (by decide)).2.2.1,
    (c1_cursor_invariant_amended twoTrackState 1 true true true false 0 1 none
      [] (fun _ => true) 0 (by decide)).2.2.2.1,
    (c1_cursor_invariant_amended twoTrackState 1 true true true false 0 1 none
      [] (fun _ => true) 0 (by decide)).2.2.2.2⟩

/-!  C2: auto-advance on engine exit. -/

/-- C2: on a tick where the engine process has exited while the
machine believes itself Playing (audio session), the dead handles are
dropped and Advance(+1) runs: when a next index exists that track
starts playing (cursor moves there, fresh session), otherwise
playback ends with the cursor unchanged. -/
theorem c2_auto_advance (s : MPState) (r : Nat) (vOk : Bool) (now : ℚ)
    (hp : s.playing = true) (hm : s.mpvProc = true) (hv : s.videoProc = false)
    (haud : ∀ p ∈ s.playlist, isVideoExt (pyLower p.file.ext) = false) :
    (∀ n : Int, nextIndex { s with mpvSock := false, mpvProc := false } 1 r = some n →
      (update s true false r true vOk now).current_index = n ∧
      (update s true false r true vOk now).playing = true ∧
      (update s true false r true vOk now).paused = false ∧
      (update s true false r true vOk now).mpvProc = true ∧
      (update s true false r true vOk now).mpvSock = true) ∧
    (nextIndex { s with mpvSock := false, mpvProc := false } 1 r = none →
      (update s true false r true vOk now).playing = false ∧
      (update s true false r true vOk now).paused = false ∧
      (update s true false r true vOk now).mpvProc = false ∧
      (update s true false r true vOk now).mpvSock = false ∧
      (update s true false r true vOk now).current_index = s.current_index) := by
  have hguard : (s.playing && s.mpvProc && true) = true := by
    rw [hp, hm]
    rfl
  constructor
  · intro n hn
    have hb : 0 ≤ n ∧ n < (s.playlist.length : Int) := nextIndex_some_bounds hn
    have hmem : s.playlist.getD n.toNat emptyTrack ∈ s.playlist :=
      getD_mem_playlist s hb.1 hb.2
    have haudio : isVideoExt (pyLower ((s.playlist.getD n.toNat emptyTrack).file.ext)) = false :=
      haud _ hmem
    have haas : autoAdvanceStep s true r true vOk now =
        play { s with mpvSock := false, mpvProc := false } n true vOk now := by
      unfold autoAdvanceStep
      rw [if_pos hguard]
      dsimp only
      rw [hn]
    have hun : update s true false r true vOk now =
        play { s with mpvSock := false, mpvProc := false } n true vOk now := by
      unfold update
      rw [haas, videoReapStep_false]
    rw [hun,
      play_audio_connect { s with mpvSock := false, mpvProc := false } n vOk now
        hb.1 hb.2 haudio]
    exact ⟨rfl, rfl, rfl, rfl, rfl⟩
  · intro hn
    have haas : autoAdvanceStep s true r true vOk now =
        { s with mpvSock := false, mpvProc := false, playing := false,
                 paused := false, view := s.returnView } := by
      unfold autoAdvanceStep
      rw [if_pos hguard]
      dsimp only
      rw [hn]
    have hun : update s true false r true vOk now =
        { s with mpvSock := false, mpvProc := false, playing := false,
                 paused := false, view := s.returnView } := by
      unfold update
      rw [haas, videoReapStep_false]
    rw [hun]
    exact ⟨rfl, rfl, rfl, rfl, rfl⟩

def threeTrackListing : List FileName := [⟨"a", ".mp3"⟩, ⟨"b", ".mp3"⟩, ⟨"c", ".mp3"⟩]

def threeTrackQueue : MPState := loadTracksFromDir initState "/m" (some threeTrackListing)

def playingTrack0 : MPState := play threeTrackQueue 0 true true 0

def playingTrack2 : MPState := play threeTrackQueue 2 true true 0

theorem c2_auto_advance_witness :
    playingTrack0.playing = true ∧ playingTrack0.mpvProc = true ∧
    nextIndex { playingTrack0 with mpvSock := false, mpvProc := false } 1 0 = some 1 ∧
    (update playingTrack0 true false 0 true true 1).current_index = 1 ∧
    (update playingTrack0 true false 0 true true 1).playing = true ∧
    nextIndex { playingTrack2 with mpvSock := false, mpvProc := false } 1 0 = none ∧
    (update playingTrack2 true false 0 true true 1).playing = false ∧
    (update playingTrack2 true false 0 true true 1).current_index = 2 := by
  have h0 := (c2_auto_advance playingTrack0 0 true 1 (by decide) (by decide)
    (by decide) (by decide)).1 1 (by decide)
  have h2 := (c2_auto_advance playingTrack2 0 true 1 (by decide) (by decide)
    (by decide) (by decide)).2 (by decide)
  exact ⟨by decide, by decide, by decide, h0.1, h0.2.1, by decide, h2.1, h2.2.2.2.2⟩

/-!  C10: starting playback from a saved playlist. -/

/-- C10: starting playback from a saved playlist first filters out
entries whose files no longer exist; if nothing survives the request
is a no-op, and when the selected entry is missing (or its path does
not occur in the filtered queue, or the selection is out of range)
playback starts at index 0 of the filtered queue. -/
theorem c10_playlist_start_filtering (s : MPState) (plT : List TrackPath)
    (ex : TrackPath → Bool) (index : Nat) (c v : Bool) (now : ℚ) :
    (plT.filter ex = [] → playFromPlaylistDetail s plT ex index c v now = s) ∧
    (plT.filter ex ≠ [] →
      (playFromPlaylistDetail s plT ex index c v now).playlist = plT.filter ex ∧
      ((plT.length ≤ index ∨ plT.getD index emptyTrack ∉ plT.filter ex) →
        (playFromPlaylistDetail s plT ex index c v now).current_index = 0)) := by
  constructor
  · intro hemp
    unfold playFromPlaylistDetail
    dsimp only
    rw [if_pos (List.isEmpty_iff.mpr hemp)]
  · intro hne
    have hlen : 0 < (plT.filter ex).length := List.length_pos.mpr hne
    have hie : (plT.filter ex).isEmpty = false := List.isEmpty_eq_false.mpr hne
    constructor
    · unfold playFromPlaylistDetail
      dsimp only
      rw [hie, if_neg (by decide)]
      rw [play_playlist_eq]
    · intro hmiss
      have hidx0 : (if index < plT.length then
          match (plT.filter ex).findIdx? (fun p => decide (p = plT.getD index emptyTrack)) with
          | some i => i
          | none => 0
        else 0) = 0 := by
        rcases hmiss with hlen2 | hnotin
        · rw [if_neg (by omega)]
        · by_cases hi : index < plT.length
          · rw [if_pos hi]
            have hf : (plT.filter ex).findIdx?
                (fun p => decide (p = plT.getD index emptyTrack)) = none := by
              rw [List.findIdx?_eq_none_iff]
              intro x hx
              by_cases hxe : x = plT.getD index emptyTrack
              · exact absurd (hxe ▸ hx) hnotin
              · exact decide_eq_false hxe
            rw [hf]
          · rw [if_neg hi]
      unfold playFromPlaylistDetail
      dsimp only
      rw [hie, if_neg (by decide)]
      rw [hidx0, play_current_of_in_range _ _ c v now (by exact_mod_cast Nat.zero_le 0)
        (by exact_mod_cast hlen)]
      rfl

def plDetailTracks : List TrackPath :=
  [⟨"/p", ⟨"a", ".mp3"⟩⟩, ⟨"/p", ⟨"b", ".mp3"⟩⟩, ⟨"/p", ⟨"c", ".mp3"⟩⟩]

def plFileMissingB : TrackPath → Bool := fun p => !(p.file.stem == "b")

theorem c10_playlist_start_filtering_witness :
    plDetailTracks.filter plFileMissingB ≠ [] ∧
    (1 < plDetailTracks.length ∧ plFileMissingB (plDetailTracks.getD 1 emptyTrack) = false) ∧
    (playFromPlaylistDetail initState plDetailTracks plFileMissingB 1 true true 0).playlist
      = plDetailTracks.filter plFileMissingB ∧
    (playFromPlaylistDetail initState plDetailTracks plFileMissingB 1 true true 0).current_index
      = 0 ∧
    plDetailTracks.filter (fun _ => false) = [] ∧
    playFromPlaylistDetail initState plDetailTracks (fun _ => false) 0 true true 0 = initState := by
  have hm := (c10_playlist_start_filtering initState plDetailTracks plFileMissingB
    1 true true 0).2 (by decide)
  have hz := (c10_playlist_start_filtering initState plDetailTracks (fun _ => false)
    0 true true 0).1 (by decide)
  exact ⟨by decide, by decide, hm.1, hm.2 (by decide), by decide, hz⟩

/-!  C7: playlist persistence format. -/

def bareStringFile : ParseOutcome :=
  ParseOutcome.ok (Json.obj [("tracks", Json.arr [Json.str "/m/a.mp3"])])

def structuredFile : ParseOutcome :=
  ParseOutcome.ok (Json.obj
    [("tracks", Json.arr [Json.obj [("path", Json.str "/m/a.mp3")]])])

/-- C7 counterexample: load_playlist performs no normalization at
all: a file whose single entry is the bare string "/m/a.mp3" loads to
a different in-memory list than a file whose single entry is a
structured record carrying the same path. -/
theorem c7_legacy_normalization_counterexample :
    load_playlist bareStringFile = Except.ok (Json.arr [Json.str "/m/a.mp3"]) ∧
    load_playlist structuredFile =
      Except.ok (Json.arr [Json.obj [("path", Json.str "/m/a.mp3")]]) ∧
    load_playlist bareStringFile ≠ load_playlist structuredFile := by
  refine ⟨rfl, rfl, ?_⟩
  intro h
  simp [load_playlist, bareStringFile, structuredFile, pyDictGet] at h

/-- C7 amended: load_playlist returns the value stored under the
"tracks" key unchanged — bare-string entries (the format the code
itself writes) are accepted without failing and without any
transformation, an unreadable or undecodable file yields the empty
list, and no normalization step exists, so structured records are
returned as structured records, not converted to the bare-string
form. -/
theorem c7_load_playlist_amended :
    (∀ j : Json, load_playlist (ParseOutcome.ok (Json.obj [("tracks", j)])) =
      Except.ok j) ∧
    load_playlist ParseOutcome.ioError = Except.ok (Json.arr []) ∧
    load_playlist ParseOutcome.decodeError = Except.ok (Json.arr []) ∧
    load_playlist bareStringFile ≠ load_playlist structuredFile := by
  refine ⟨fun j => rfl, rfl, rfl, ?_⟩
  intro h
  simp [load_playlist, bareStringFile, structuredFile, pyDictGet] at h

theorem c7_load_playlist_amended_witness :
    load_playlist (ParseOutcome.ok (Json.obj
      [("tracks", Json.arr [Json.str "/m/a.mp3", Json.str "/m/b.mp3"])])) =
      Except.ok (Json.arr [Json.str "/m/a.mp3", Json.str "/m/b.mp3"]) :=
  c7_load_playlist_amended.1 (Json.arr [Json.str "/m/a.mp3", Json.str "/m/b.mp3"])

/-!  C8: control-channel query failure modes. -/

theorem scanReplies_eq_none {rid : Int} {events : List RecvEvent}
    (h : noReplyMatches rid events = true) : scanReplies rid events = none := by
  induction events with
  | nil => rfl
  | cons e rest ih =>
    cases e with
    | chunk lines =>
      have hall := List.all_eq_true.mp h
      have hline : ∀ l ∈ lines, matchLine rid l = none := by
        intro l hl
        have he : RecvEvent.chunk lines ∈ RecvEvent.chunk lines :: rest :=
          List.mem_cons_self _ _
        have := hall _ he
        simp only at this
        have hlm := List.all_eq_true.mp this l hl
        cases hml : matchLine rid l with
        | none => rfl
        | some d =>
          exfalso
          simp [lineMatches, hml] at hlm
      have hrest : noReplyMatches rid rest = true := by
        rw [noReplyMatches, List.all_eq_true]
        intro e he
        exact hall e (List.mem_cons_of_mem _ he)
      unfold scanReplies
      rw [List.findSome?_eq_none_iff.mpr hline]
      exact ih hrest
    | closed => rfl
    | timedOut => rfl
    | sockError => rfl

/-- C8: a property query that has no socket, whose send hits a socket
error, or that sees no matching successful reply before the deadline
(timeout, closed peer, socket error, non-success error field,
mismatched request id, unparseable lines) returns no value (None);
the embedding is a total function, so no exception escapes. -/
theorem c8_query_failure_returns_none (hasSock sendOk : Bool) (rid : Int)
    (events : List RecvEvent) :
    (hasSock = false → mpv_get hasSock sendOk rid events = none) ∧
    (sendOk = false → mpv_get hasSock sendOk rid events = none) ∧
    (noReplyMatches rid events = true → mpv_get hasSock sendOk rid events = none) := by
  refine ⟨?_, ?_, ?_⟩
  · intro h
    rw [h]
    rfl
  · intro h
    rw [h]
    unfold mpv_get
    cases hasSock <;> rfl
  · intro h
    unfold mpv_get
    cases hasSock with
    | false => rfl
    | true =>
      cases sendOk with
      | false => rfl
      | true => exact scanReplies_eq_none h

def failureEvents : List RecvEvent :=
  [RecvEvent.chunk [none,
      some ⟨some 3, some "success", some (Json.num 1)⟩,
      some ⟨some 7, some "property unavailable", none⟩],
    RecvEvent.timedOut]

theorem c8_query_failure_returns_none_witness :
    noReplyMatches 7 failureEvents = true ∧
    mpv_get true true 7 failureEvents = none ∧
    mpv_get false true 7 [] = none :=
  ⟨by rfl, (c8_query_failure_returns_none true true 7 failureEvents).2.2 (by rfl),
    (c8_query_failure_returns_none false true 7 []).1 rfl⟩

/-!  C9: the position estimator. -/

/-- C9: _get_elapsed issues a resync query only when more than 0.5
seconds have passed since the last resync attempt; without a resync
it returns the frozen cached position while paused and
cached_elapsed + (now - cached_timestamp) while playing, so two calls
within one resync interval while playing advance by exactly the
wall-clock delta and never decrease. -/
theorem c9_elapsed_extrapolation (c : PosCache) (paused hasSock : Bool)
    (qr qr1 qr2 : Option ℚ) (now now1 now2 : ℚ) :
    ((getElapsed c paused hasSock now qr).2.2 = true →
      (1 : ℚ)/2 < now - c.lastQueryTick) ∧
    (¬ ((1 : ℚ)/2 < now - c.lastQueryTick) →
      (getElapsed c true hasSock now qr).1 = c.cachedPos ∧
      (getElapsed c false hasSock now qr).1 = c.cachedPos + (now - c.posQueryTime)) ∧
    (now1 ≤ now2 → now2 - c.lastQueryTick ≤ 1/2 →
      (getElapsed c false hasSock now2 qr2).1 - (getElapsed c false hasSock now1 qr1).1
        = now2 - now1 ∧
      (getElapsed c false hasSock now1 qr1).1 ≤ (getElapsed c false hasSock now2 qr2).1) := by
  refine ⟨?_, ?_, ?_⟩
  · intro h
    unfold getElapsed at h
    dsimp only at h
    by_cases hc : hasSock = true ∧ (1 : ℚ)/2 < now - c.lastQueryTick
    · exact hc.2
    · rw [if_neg hc] at h
      cases h
  · intro h
    have hc : ¬ (hasSock = true ∧ (1 : ℚ)/2 < now - c.lastQueryTick) := by
      intro hh
      exact h hh.2
    unfold getElapsed
    dsimp only
    rw [if_neg hc]
    exact ⟨rfl, rfl⟩
  · intro h12 hwin
    have hc2 : ¬ (hasSock = true ∧ (1 : ℚ)/2 < now2 - c.lastQueryTick) := by
      intro hh
      linarith [hh.2]
    have hc1 : ¬ (hasSock = true ∧ (1 : ℚ)/2 < now1 - c.lastQueryTick) := by
      intro hh
      linarith [hh.2]
    unfold getElapsed
    dsimp only
    rw [if_neg hc1, if_neg hc2]
    constructor
    · show c.cachedPos + (now2 - c.posQueryTime)
        - (c.cachedPos + (now1 - c.posQueryTime)) = now2 - now1
      ring
    · show c.cachedPos + (now1 - c.posQueryTime)
        ≤ c.cachedPos + (now2 - c.posQueryTime)
      linarith

def posCacheAt10 : PosCache :=
  { cachedPos := 3, cachedDur := 100, posQueryTime := 10, lastQueryTick := 10 }

theorem c9_elapsed_extrapolation_witness :
    ((41 : ℚ)/4 ≤ 21/2) ∧ ((21 : ℚ)/2 - posCacheAt10.lastQueryTick ≤ 1/2) ∧
    (getElapsed posCacheAt10 false true (21/2) none).1
        - (getElapsed posCacheAt10 false true (41/4) none).1 = 21/2 - 41/4 ∧
    (getElapsed posCacheAt10 false true (41/4) none).1
      ≤ (getElapsed posCacheAt10 false true (21/2) none).1 ∧
    (¬ ((1 : ℚ)/2 < 41/4 - posCacheAt10.lastQueryTick)) ∧
    (getElapsed posCacheAt10 true true (41/4) none).1 = posCacheAt10.cachedPos := by
  have hm := (c9_elapsed_extrapolation posCacheAt10 false true none none none
    0 (41/4) (21/2)).2.2 (by norm_num) (by norm_num [posCacheAt10])
  have hp := (c9_elapsed_extrapolation posCacheAt10 true true none none none
    (41/4) 0 0).2.1 (by norm_num [posCacheAt10])
  exact ⟨by norm_num, by norm_num [posCacheAt10], hm.1, hm.2,
    by norm_num [posCacheAt10], hp.1⟩

end BubuOS
